import Mathlib

/-!
# A shallow embedding of the `alice_rs` interpreter

This file embeds the core of the `alice_rs` repository (a stack-oriented,
statically typed toy language) in Lean 4:

* the primitive type bitmasks and the abstract `TypeStack`
  (`src/type_check.rs`),
* the statement AST together with its three checker contracts
  (`in_pattern` / `custom_type_check` / `out_pattern`) and its concrete
  `execute` semantics (`src/statement.rs`, `src/runtime.rs`,
  `src/object.rs`, `src/flow.rs`),
* the lexer (`src/lexer.rs`) and the parser (`src/parser.rs`).

Modelling conventions:

* Rust `u32` bitmasks become `Nat` (all masks are < 2^32 and no overflow
  can occur: the only operation is bitwise AND).
* Rust `f64` becomes `ℚ`.  Every concrete number exercised by a theorem in
  this file is a small integer, which `f64` represents exactly, so no
  rounding behaviour is observable in any statement proved below.
* `Vec` stacks are Lean lists with the *head* as the top of the stack
  (Rust pushes/pops at the back of the `Vec`).
* `HashMap` becomes an association list whose `put` replaces any previous
  binding; only `get`/`insert`/`remove` are ever used by the source.
* Rust functions that can `panic!` / `todo!` (as distinct from returning
  `Err`) return a dedicated `Res` result with a `panic` constructor;
  `std::process::exit` becomes the `exit` constructor.
* Fallible iteration that is not structurally recursive in Rust
  (the executor can recurse through function values stored in the table,
  the parser recurses through nested blocks) is given explicit fuel; all
  theorems either quantify over the fuel or use an ample concrete amount.
-/

namespace Alice

/-! ## Result type

`ok`/`err` mirror Rust's `Result`; `panic` models `panic!`/`todo!`/`unwrap`
aborts, and `exit` models `std::process::exit`. -/

inductive Res (α : Type) where
  | ok (a : α)
  | err (e : String)
  | panic (msg : String)
  | exit (code : Int)
  deriving Repr

def Res.bind : Res α → (α → Res β) → Res β
  | .ok a, f => f a
  | .err e, _ => .err e
  | .panic m, _ => .panic m
  | .exit c, _ => .exit c

instance : Monad Res where
  pure := Res.ok
  bind := Res.bind

def Res.isOk : Res α → Bool
  | .ok _ => true
  | _ => false

/-! ## Type bitmasks — `src/type_check.rs` -/

def STRING : Nat := 1
def BOOL : Nat := 2
def INT : Nat := 4
def FLOAT : Nat := 8
def OBJECT : Nat := 16
def ANY : Nat := 0b11111

/-! ## The AST

`src/statement.rs` uses one struct per statement behind a `dyn Statement`
trait; we use a closed inductive with one constructor per struct that
implements `Statement` (the `NotEqsStatement` and `NotStatement` structs
have no `impl Statement` in the source and cannot be constructed as
statements, so they have no constructor here).  `IfContainer` /
`IfElseContainer` (`src/flow.rs`) are inlined as constructor arguments.

`AliceVal` is the runtime value (`src/runtime.rs`).  The snapshot's
`runtime.rs` enum lacks the `Function` variant even though
`src/statement.rs` and `src/type_check.rs` both match on
`AliceVal::Function`; we include the variant, since the statement and
checker code that the claims cite requires it.  `AliceObj` keeps the two
fields the embedded operations read (`type_name`, `type_hash`); its
`members`/`functions` maps are read by no operation modelled here
(`Display` for objects is `todo!()` and `PartialEq` compares only the
hash), so they are omitted from the embedding. -/

structure AliceObj where
  typeName : String
  typeHash : Nat
  deriving Repr

mutual

inductive AliceVal where
  | string (s : Option String)
  | bool (b : Option Bool)
  | int (i : Option Int)
  | float (f : Option ℚ)
  | object (o : Option AliceObj)
  | function (f : Option AliceFun)

inductive AliceFun where
  | mk (args : List Nat) (returnType : Nat) (body : List Statement)

inductive Statement where
  | push (v : AliceVal)
  | println
  | print
  | pstack
  | exit
  | okexit
  | drop
  | swap
  | dup
  | over
  | rot
  | add
  | sub
  | mul
  | div
  | pow
  | mod
  | clear
  | letS (ident : String) (ty : Nat) (literal : Option AliceVal)
  | pushFromTable (ident : String)
  | funS (ident : String) (f : AliceFun)
  | executeFun (ident : String)
  | ifS (body : List Statement)
  | ifElse (ifBody : List Statement) (elseBody : List Statement)
  | readInput
  | eqs
  | gt
  | gtEqs
  | lt
  | ltEqs

end

def AliceFun.args : AliceFun → List Nat
  | .mk a _ _ => a

def AliceFun.returnType : AliceFun → Nat
  | .mk _ r _ => r

def AliceFun.body : AliceFun → List Statement
  | .mk _ _ b => b

/-! ## `type_bit` — `src/type_check.rs`

`type_bit` panics on `Function` values ("function should not be allowed on
stack"); `none` models that panic. -/

def typeBit : AliceVal → Option Nat
  | .string _ => some STRING
  | .bool _ => some BOOL
  | .int _ => some INT
  | .float _ => some FLOAT
  | .object (some o) => some o.typeHash
  | .object none => some OBJECT
  | .function _ => none

/-! ## Association-list maps (stand-in for `HashMap`) -/

def lookupMap (k : String) (m : List (String × α)) : Option α :=
  match m with
  | [] => none
  | (k', v) :: rest => if k' = k then some v else lookupMap k rest

def eraseMap (k : String) (m : List (String × α)) : List (String × α) :=
  match m with
  | [] => []
  | (k', v) :: rest => if k' = k then eraseMap k rest else (k', v) :: eraseMap k rest

/-- Embeds `HashMap::insert`: replaces any previous binding for the key. -/
def putMap (k : String) (v : α) (m : List (String × α)) : List (String × α) :=
  (k, v) :: eraseMap k m

/-! ## The abstract type stack — `src/type_check.rs` -/

structure TypeStack where
  vals : List Nat
  vars : List (String × Nat)
  funs : List (String × (List Nat × Nat))

def TypeStack.new : TypeStack := ⟨[], [], []⟩

def TypeStack.pop (ts : TypeStack) : Option Nat × TypeStack :=
  match ts.vals with
  | [] => (none, ts)
  | v :: rest => (some v, { ts with vals := rest })

/-- Embeds `TypeStack::required_size`. -/
def TypeStack.requiredSize (ts : TypeStack) (size : Nat) : Res Unit :=
  if ts.vals.length < size then
    .err "too few elements on stack when this executes"
  else
    .ok ()

/-- Embeds `PartialEq for TypeStack`: compares only the `vals` sequences. -/
def TypeStack.beq (a b : TypeStack) : Bool :=
  a.vals == b.vals

/-- Embeds `StackPattern::single`. -/
def StackPattern.single (ty : Nat) : List Nat := [ty]

/-- Embeds `StackPattern::any`. -/
def StackPattern.any (n : Nat) : List Nat := List.replicate n ANY

/-- Embeds `StackPattern::type_check`: for each pattern slot in order, pop an
`actual` mask and require `actual & t == actual`. -/
def patternTypeCheck (pattern : List Nat) (ts : TypeStack) : Res TypeStack :=
  match pattern with
  | [] => .ok ts
  | t :: rest =>
    match ts.vals with
    | actual :: vs =>
      if Nat.land actual t ≠ actual then
        .err "wrong type on stack when this executes"
      else
        patternTypeCheck rest { ts with vals := vs }
    | [] => .err "too few values on stack when this executes"

/-- Embeds `StackPattern::push`: pushes each slot in order (the last pattern
element ends up on top). -/
def patternPush (pattern : List Nat) (ts : TypeStack) : TypeStack :=
  match pattern with
  | [] => ts
  | t :: rest => patternPush rest { ts with vals := t :: ts.vals }

/-! ## Checker contracts per statement — `src/statement.rs` -/

/-- Embeds `Statement::in_pattern` for each statement struct (the default impl
returns the empty pattern). -/
def inPattern : Statement → List Nat
  | .println => StackPattern.any 1
  | .print => StackPattern.any 1
  | .exit => StackPattern.single INT
  | .drop => StackPattern.any 1
  | .letS _ ty _ => StackPattern.single ty
  | .ifS _ => StackPattern.single BOOL
  | .ifElse _ _ => StackPattern.single BOOL
  | _ => []

/-- Embeds `Statement::out_pattern` for each statement struct.  `PushStatement`
computes `type_bit` of its literal, which panics on a `Function` value. -/
def outPattern : Statement → Res (List Nat)
  | .push v =>
    match typeBit v with
    | some t => .ok (StackPattern.single t)
    | none => .panic "function should not be allowed on stack"
  | .readInput => .ok (StackPattern.single STRING)
  | _ => .ok []

/-- The result mask table shared by `add` (which also accepts
`(STRING, STRING)`) and by `sub`/`mul`/`div`/`mod`; `a` is the mask popped
second (the value deeper in the stack), `b` the mask popped first. -/
def arithResult (a b : Nat) (string_ok : Bool) (msg : String) : Res Nat :=
  if a = INT ∧ b = INT then .ok INT
  else if a = FLOAT ∧ b = FLOAT then .ok FLOAT
  else if (a = INT ∧ b = FLOAT) ∨ (a = FLOAT ∧ b = INT) then .ok FLOAT
  else if string_ok ∧ a = STRING ∧ b = STRING then .ok STRING
  else .err msg

/-- The shared body of `AddStatement`/`SubStatement`/`MulStatement`/
`DivStatement`/`ModStatement` custom checks: `b` is popped first (top),
then `a`. -/
def arith2 (ts : TypeStack) (string_ok : Bool) (msg : String) : Res TypeStack := do
  let _ ← ts.requiredSize 2
  match ts.vals with
  | b :: a :: rest => do
    let r ← arithResult a b string_ok msg
    .ok { ts with vals := r :: rest }
  | _ => .panic "unreachable"

/-- The `cmp_statement!` macro's `custom_type_check` (`<`, `<=`, `>`, `>=`):
pop `a` (top) then `b`, and fail unless
`a == FLOAT || (a == INT && a == b)` — the parenthesisation is Rust's
(`&&` binds tighter than `||`), so a `FLOAT` on top is accepted whatever
is beneath it. -/
def cmpTypeCheck (ts : TypeStack) : Res TypeStack := do
  let _ ← ts.requiredSize 2
  match ts.vals with
  | a :: b :: rest =>
    if ¬(a = FLOAT ∨ (a = INT ∧ a = b)) then
      .err "can only arithmetically compare int to int and float to float!"
    else
      .ok { ts with vals := BOOL :: rest }
  | _ => .panic "unreachable"

mutual

/-- Embeds `Statement::custom_type_check` for each statement struct (the default
impl returns `Ok(())` without touching the stack).  The fuel only feeds
the recursion into `if`/`if-else` bodies (every recursive call steps it
down, which keeps the definitions reducible); the non-recursive arms need
one unit. -/
def customTypeCheck : Nat → Statement → TypeStack → Res TypeStack
  | 0, _, _ => .panic "recursion limit reached"
  | fuel + 1, s, ts =>
  match s with
  | .swap => do
    let _ ← ts.requiredSize 2
    match ts.vals with
    | v0 :: v1 :: rest => .ok { ts with vals := v1 :: v0 :: rest }
    | _ => .panic "unreachable"
  | .dup => do
    let _ ← ts.requiredSize 1
    match ts.vals with
    | v0 :: rest => .ok { ts with vals := v0 :: v0 :: rest }
    | _ => .panic "unreachable"
  | .over => do
    let _ ← ts.requiredSize 2
    match ts.vals with
    | v0 :: v1 :: rest => .ok { ts with vals := v1 :: v0 :: v1 :: rest }
    | _ => .panic "unreachable"
  | .rot => do
    let _ ← ts.requiredSize 3
    match ts.vals with
    | v0 :: v1 :: v2 :: rest => .ok { ts with vals := v2 :: v0 :: v1 :: rest }
    | _ => .panic "unreachable"
  | .add => arith2 ts true "+ only works on numbers and string+string concat"
  | .sub => arith2 ts false "- only works on numbers"
  | .mul => arith2 ts false "* only works on numbers"
  | .div => arith2 ts false "/ only works on numbers"
  | .pow => do
    let _ ← ts.requiredSize 2
    match ts.vals with
    | b :: a :: rest =>
      if a = INT ∧ b = INT then .ok { ts with vals := INT :: rest }
      else if a = FLOAT ∧ b = FLOAT then .ok { ts with vals := FLOAT :: rest }
      else if a = FLOAT ∧ b = INT then .ok { ts with vals := FLOAT :: rest }
      else if a = INT ∧ b = FLOAT then
        .err "cannot raise an int to the power of a float"
      else .err "** only works on numbers"
    | _ => .panic "unreachable"
  | .mod => arith2 ts false "** only works on numbers"
  | .clear => do
    let _ ← ts.requiredSize 0
    .ok { ts with vals := [] }
  | .letS ident ty _ => .ok { ts with vars := putMap ident ty ts.vars }
  | .pushFromTable ident =>
    match lookupMap ident ts.vars with
    | some ty => .ok { ts with vals := ty :: ts.vals }
    | none =>
      .err ("variable binding " ++ ident ++ " doesn't exist when this executes")
  | .funS ident f =>
    .ok { ts with funs := putMap ident (f.args, f.returnType) ts.funs }
  | .executeFun ident =>
    -- the source removes the signature, clones it and reinserts it at once
    match lookupMap ident ts.funs with
    | some sig => do
      let ts := { ts with funs := putMap ident sig (eraseMap ident ts.funs) }
      let ts ← patternTypeCheck sig.1 ts
      if sig.2 ≠ 0 then
        .ok { ts with vals := sig.2 :: ts.vals }
      else
        .ok ts
    | none =>
      .err ("function '" ++ ident ++ "' doesn't exist when this executes!")
  | .ifS body => do
    let stackSize0 := ts.vals.length
    let ts' ← checkRc fuel body ts
    if ts'.vals.length ≠ stackSize0 then
      .err "if without else part is not allowed to modify stack"
    else
      .ok ts'
  | .ifElse ifBody elseBody => do
    let stackClone := ts
    let ts' ← checkRc fuel ifBody ts
    let stackClone' ← checkRc fuel elseBody stackClone
    if stackClone'.beq ts' then
      .ok ts'
    else
      .err "if and else body don't have equal affect on stack"
  | .eqs => do
    let _ ← ts.requiredSize 2
    match ts.vals with
    | a :: b :: rest =>
      if a ≠ b then
        .err "cannot == compare values of different types"
      else
        .ok { ts with vals := BOOL :: rest }
    | _ => .panic "unreachable"
  | .gt => cmpTypeCheck ts
  | .gtEqs => cmpTypeCheck ts
  | .lt => cmpTypeCheck ts
  | .ltEqs => cmpTypeCheck ts
  | _ => .ok ts

/-- One checker step for one statement: `in_pattern().type_check`, then
`custom_type_check`, then `out_pattern().push` — the loop body shared by
`check`, `check_interactive` and `check_rc` in `src/type_check.rs`. -/
def checkStep : Nat → Statement → TypeStack → Res TypeStack
  | 0, _, _ => .panic "recursion limit reached"
  | fuel + 1, s, ts => do
    let ts ← patternTypeCheck (inPattern s) ts
    let ts ← customTypeCheck fuel s ts
    let outp ← outPattern s
    .ok (patternPush outp ts)

/-- Embeds `check_rc` (also the loop of `check_interactive`): fold `checkStep`
over the statement list. -/
def checkRc : Nat → List Statement → TypeStack → Res TypeStack
  | 0, _, _ => .panic "recursion limit reached"
  | _ + 1, [], ts => .ok ts
  | fuel + 1, s :: rest, ts => do
    let ts ← checkStep fuel s ts
    checkRc fuel rest ts

end


/-- Embeds `check`: batch mode.  Runs the fold from an empty `TypeStack` and then
requires the final `vals` to be empty, reporting the number of excess
values otherwise.  (The fuel is a modelling artifact of the nested
recursion; theorems quantify over it or pass an ample amount.) -/
def check (fuel : Nat) (statements : List Statement) : Res Unit := do
  let ts ← checkRc fuel statements TypeStack.new
  if ts.vals.isEmpty then
    .ok ()
  else
    .err (toString ts.vals.length ++ " excess values on the stack!")

/-- Embeds `check_interactive`: folds over a caller-supplied persistent
`TypeStack` and never requires emptiness; the surplus is preserved in the
returned state. -/
def checkInteractive (fuel : Nat) (ts : TypeStack)
    (statements : List Statement) : Res TypeStack :=
  checkRc fuel statements ts

/-! ## The executor — `src/statement.rs` + `src/runtime.rs`

The runtime state bundles the operand stack (`AliceStack`, head = top),
the variable table (`AliceTable`), and the process's standard input
(a list of already-read lines) and output (lines/fragments in emission
order).

Machine-level caveats of the model, none observable by any theorem below:
`i64` arithmetic is unbounded (Rust would wrap in release / abort in
debug builds on overflow, and aborts on division by zero, which *is*
modelled), `f64` is `ℚ` (exact for the small integers used here), and
`f64::powf` is modelled only for integral exponents. -/

structure ExecState where
  stack : List AliceVal
  table : List (String × AliceVal)
  input : List String
  output : List String

/-- Embeds `AliceStack::pop` (returns `Result<AliceVal, String>`). -/
def popStack (stack : List AliceVal) : Res AliceVal × List AliceVal :=
  match stack with
  | [] => (.err "empty stack", [])
  | v :: rest => (.ok v, rest)

/-- Truncation of a rational toward zero (`f64 as i64` / `f64::trunc`). -/
def ratTrunc (q : ℚ) : Int := q.num.tdiv q.den

/-- Rust's `as i32` truncating cast from `i64`. -/
def asI32 (i : Int) : Int := (i + 2147483648) % 4294967296 - 2147483648

/-- Rust `f64 % f64`: remainder with the dividend's sign
(`a - b * trunc(a / b)`); the `b = 0` (NaN) case is unexercised. -/
def floatRem (a b : ℚ) : ℚ := a - b * (ratTrunc (a / b) : ℚ)

/-- Embeds `f64::powf` / `f64::powi` on the exercised domain (integral
exponents). -/
def floatPow (a : ℚ) (n : Int) : ℚ :=
  if n ≥ 0 then a ^ n.toNat else (a⁻¹) ^ (-n).toNat

/-- Embeds `Display for AliceVal`: `none` models the panics — the
`expect("cannot print null binding")` on a `None` payload, the `todo!()`
for objects, and the absence of any `Function` arm. -/
def displayVal : AliceVal → Option String
  | .string (some s) => some s
  | .bool (some b) => some (if b then "true" else "false")
  | .int (some i) => some (toString i)
  | .float (some q) => some (toString q)
  | _ => none

/-- Derived `PartialEq for AliceVal`, including the object comparison by
`type_hash` only and the `panic!("this should never happen... wtf?")` in
`PartialEq for AliceFun` (modelled as `none`). -/
def valEqP : AliceVal → AliceVal → Option Bool
  | .string a, .string b => some (a == b)
  | .bool a, .bool b => some (a == b)
  | .int a, .int b => some (a == b)
  | .float a, .float b => some (a == b)
  | .object a, .object b =>
    match a, b with
    | none, none => some true
    | some o1, some o2 => some (o1.typeHash == o2.typeHash)
    | _, _ => some false
  | .function a, .function b =>
    match a, b with
    | none, none => some true
    | some _, some _ => none
    | _, _ => some false
  | _, _ => some false

/-- Derived `PartialEq` on `Result<AliceVal, String>` as used by
`EqsStatement::execute` (which compares the raw `pop()` results). -/
def resultValEq (a b : Res AliceVal) : Option Bool :=
  match a, b with
  | .ok x, .ok y => valEqP x y
  | .err e1, .err e2 => some (e1 == e2)
  | _, _ => some false

/-- Derived `PartialOrd`/`Ord` on `Option` (`None` is the minimum), used
by the comparison statements on `Option<f64>` / `Option<i64>`. -/
def optCmp [LinearOrder α] (a b : Option α) : Ordering :=
  match a, b with
  | none, none => .eq
  | none, some _ => .lt
  | some _, none => .gt
  | some x, some y => compare x y

/-- The numeric result of `+`/`-`/`*`/`/`/`%` on two operand values, with
`a` the deeper operand and `b` the top; `none` when the value pair falls
through to the `_ => ()` arm (then nothing is pushed), `some (panic …)`
for the division-by-zero abort and the `unwrap`s on `None` payloads. -/
def arithExecOp (f : Int → Int → Res Int) (g : ℚ → ℚ → Res ℚ)
    (a b : AliceVal) : Option (Res AliceVal) :=
  match a, b with
  | .int (some x), .int (some y) => some ((f x y).bind fun r => .ok (.int (some r)))
  | .float (some x), .float (some y) => some ((g x y).bind fun r => .ok (.float (some r)))
  | .int (some x), .float (some y) => some ((g x y).bind fun r => .ok (.float (some r)))
  | .float (some x), .int (some y) => some ((g x y).bind fun r => .ok (.float (some r)))
  | .int none, .int _ | .int _, .int none
  | .float none, .float _ | .float _, .float none
  | .int none, .float _ | .int _, .float none
  | .float none, .int _ | .float _, .int none =>
    some (.panic "called unwrap on a None value")
  | _, _ => none

/-- The shared arithmetic `execute`: pop `b` (top) then `a`, push the
result (or nothing, on the `_ => ()` fall-through). -/
def arithExec (f : Int → Int → Res Int) (g : ℚ → ℚ → Res ℚ)
    (st : ExecState) : Res ExecState := do
  let (b, s1) := popStack st.stack
  let b ← b
  let (a, s2) := popStack s1
  let a ← a
  match arithExecOp f g a b with
  | some r => (r.bind fun v => .ok { st with stack := v :: s2 })
  | none => .ok { st with stack := s2 }

/-- The `cmp_statement!` macro's `execute`: `stack.pop().unwrap()` twice
(`b` first), compare `Option` payloads, panic on any non-(float,float)/
(int,int) pair. -/
def cmpExec (sel : Ordering → Bool) (st : ExecState) : Res ExecState :=
  match st.stack with
  | b :: a :: rest =>
    match a, b with
    | .float f1, .float f2 => .ok { st with stack := .bool (some (sel (optCmp f1 f2))) :: rest }
    | .int n1, .int n2 => .ok { st with stack := .bool (some (sel (optCmp n1 n2))) :: rest }
    | _, _ => .panic "fix your type checker, dumbass"
  | _ => .panic "called unwrap on an Err value"

mutual

/-- Embeds `Statement::execute` for each statement struct, with explicit fuel for
the recursion through stored function bodies (Rust recursion is unbounded;
fuel exhaustion models the ensuing stack overflow). -/
def exec : Nat → Statement → ExecState → Res ExecState
  | 0, _, _ => .panic "recursion limit reached"
  | _ + 1, .push v, st => .ok { st with stack := v :: st.stack }
  | _ + 1, .println, st => do
    let (v, stack) := popStack st.stack
    let v ← v
    match displayVal v with
    | some s => .ok { st with stack, output := st.output ++ [s ++ "\n"] }
    | none => .panic "cannot print value"
  | _ + 1, .print, st => do
    let (v, stack) := popStack st.stack
    let v ← v
    match displayVal v with
    | some s => .ok { st with stack, output := st.output ++ [s] }
    | none => .panic "cannot print value"
  | _ + 1, .pstack, st =>
    -- iterates the Vec bottom-up; our list head is the top
    (st.stack.reverse.foldlM (fun (out : List String) v =>
      match displayVal v with
      | some s => Res.ok (out ++ [s ++ "\n"])
      | none => Res.panic "cannot print value") st.output).bind
      fun out => .ok { st with output := out }
  | _ + 1, .exit, st =>
    -- pop_typed(&AliceVal::int())
    match st.stack with
    | .int (some i) :: _ => .exit (asI32 i)
    | .int none :: _ => .panic "called unwrap on a None value"
    | _ :: _ => .panic "implement a type checker!"
    | [] => .panic "implement a type checker!"
  | _ + 1, .okexit, _ => .exit 0
  | _ + 1, .drop, st =>
    -- `let _ = stack.pop();` — the Result is discarded
    match st.stack with
    | [] => .ok st
    | _ :: rest => .ok { st with stack := rest }
  | _ + 1, .swap, st =>
    -- stack.remove(1) panics (index out of bounds) on a short stack
    match st.stack with
    | v0 :: v1 :: rest => .ok { st with stack := v1 :: v0 :: rest }
    | _ => .panic "index out of bounds"
  | _ + 1, .dup, st =>
    match st.stack with
    | v0 :: rest => .ok { st with stack := v0 :: v0 :: rest }
    | _ => .panic "index out of bounds"
  | _ + 1, .over, st =>
    match st.stack with
    | v0 :: v1 :: rest => .ok { st with stack := v1 :: v0 :: v1 :: rest }
    | _ => .panic "index out of bounds"
  | _ + 1, .rot, st =>
    match st.stack with
    | v0 :: v1 :: v2 :: rest => .ok { st with stack := v2 :: v0 :: v1 :: rest }
    | _ => .panic "index out of bounds"
  | _ + 1, .add, st => do
    let (b, s1) := popStack st.stack
    let b ← b
    let (a, s2) := popStack s1
    let a ← a
    match a, b with
    | .string (some x), .string (some y) =>
      .ok { st with stack := .string (some (x ++ y)) :: s2 }
    | .string none, .string _ | .string _, .string none =>
      .panic "called unwrap on a None value"
    | _, _ =>
      match arithExecOp (fun x y => .ok (x + y)) (fun x y => .ok (x + y)) a b with
      | some r => (r.bind fun v => .ok { st with stack := v :: s2 })
      | none => .ok { st with stack := s2 }
  | _ + 1, .sub, st =>
    arithExec (fun x y => .ok (x - y)) (fun x y => .ok (x - y)) st
  | _ + 1, .mul, st =>
    arithExec (fun x y => .ok (x * y)) (fun x y => .ok (x * y)) st
  | _ + 1, .div, st =>
    arithExec
      (fun x y => if y = 0 then .panic "attempt to divide by zero"
                  else .ok (x.tdiv y))
      (fun x y => .ok (x / y)) st
  | _ + 1, .mod, st =>
    arithExec
      (fun x y => if y = 0 then
                    .panic "attempt to calculate the remainder with a divisor of zero"
                  else .ok (x.tmod y))
      (fun x y => .ok (floatRem x y)) st
  | _ + 1, .pow, st => do
    let (b, s1) := popStack st.stack
    let b ← b
    let (a, s2) := popStack s1
    let a ← a
    match a, b with
    | .int (some x), .int (some y) =>
      -- b.try_into::<u32>() panics on negatives and overflow
      if y < 0 ∨ y > 4294967295 then .panic "called unwrap on an Err value"
      else .ok { st with stack := .int (some (x ^ y.toNat)) :: s2 }
    | .float (some x), .float (some y) =>
      .ok { st with stack := .float (some (floatPow x (ratTrunc y))) :: s2 }
    | .float (some x), .int (some y) =>
      -- b.try_into::<i32>() panics outside the i32 range
      if y < -2147483648 ∨ y > 2147483647 then .panic "called unwrap on an Err value"
      else .ok { st with stack := .float (some (floatPow x y)) :: s2 }
    | .int none, .int _ | .int _, .int none
    | .float none, .float _ | .float _, .float none
    | .float none, .int _ | .float _, .int none =>
      .panic "called unwrap on a None value"
    | _, _ => .ok { st with stack := s2 }
  | _ + 1, .clear, st => .ok { st with stack := [] }
  | _ + 1, .letS ident _ literal, st =>
    match literal with
    | some lit => .ok { st with table := putMap ident lit st.table }
    | none =>
      -- stack.pop().unwrap()
      match st.stack with
      | [] => .panic "called unwrap on an Err value"
      | v :: rest => .ok { st with stack := rest, table := putMap ident v st.table }
  | _ + 1, .pushFromTable ident, st =>
    match lookupMap ident st.table with
    | some v => .ok { st with stack := v :: st.stack }
    | none => .panic "called unwrap on a None value"
  | _ + 1, .funS ident f, st =>
    .ok { st with table := putMap ident (.function (some f)) st.table }
  | fuel + 1, .executeFun ident, st =>
    -- take, clone, reinsert, then execute the clone's body
    match lookupMap ident st.table with
    | none => .panic "fix your type checker, dumbass!"
    | some v =>
      let table := putMap ident v (eraseMap ident st.table)
      match v with
      | .function (some f) => execList fuel f.body { st with table }
      | _ => .panic "fix your type checker, dumbass"
  | fuel + 1, .ifS body, st =>
    match st.stack with
    | .bool (some b) :: rest =>
      if b then execList fuel body { st with stack := rest } else .ok { st with stack := rest }
    | _ => .panic "fix your type checker!"
  | fuel + 1, .ifElse ifBody elseBody, st =>
    match st.stack with
    | .bool (some b) :: rest =>
      execList fuel (if b then ifBody else elseBody) { st with stack := rest }
    | _ => .panic "fix your type checker!"
  | _ + 1, .readInput, st =>
    match st.input with
    | line :: rest => .ok { st with stack := .string (some line) :: st.stack, input := rest }
    | [] => .ok { st with stack := .string (some "") :: st.stack }
  | _ + 1, .eqs, st =>
    let (a, s1) := popStack st.stack
    let (b, s2) := popStack s1
    match resultValEq a b with
    | some r => .ok { st with stack := .bool (some r) :: s2 }
    | none => .panic "this should never happen... wtf?"
  | _ + 1, .gt, st => cmpExec (fun o => o = .gt) st
  | _ + 1, .gtEqs, st => cmpExec (fun o => o ≠ .lt) st
  | _ + 1, .lt, st => cmpExec (fun o => o = .lt) st
  | _ + 1, .ltEqs, st => cmpExec (fun o => o ≠ .gt) st

/-- Sequential execution of a statement list (the executor loops in
`main.rs`, `IfStatement::execute`, `AliceFun::execute`, …); the fuel
steps down on every call so the definitions stay reducible. -/
def execList : Nat → List Statement → ExecState → Res ExecState
  | 0, _, _ => .panic "recursion limit reached"
  | _ + 1, [], st => .ok st
  | fuel + 1, s :: rest, st => do
    let st' ← exec fuel s st
    execList fuel rest st'

end

/-! ## The lexer — `src/lexer.rs`

The snapshot's `AliceToken::Number` carries only the `f64` value, while
`src/parser.rs` pattern-matches `AliceToken::Number(f, dec)` (and the
snapshot's `AliceOp` enum lacks the `Gt`/`Lt` variants that
`src/parser.rs` names), so the two files cannot compile together.  The
token type here carries the `is_decimal` flag the parser requires, set
from the lexer's `had_period` state (`false` on the early `0` returns),
and `AliceOp` carries `gt`/`lt` so the parser's match arms can be
embedded; `AliceOp::all_chars` and `From<char>` are embedded exactly as
in `lexer.rs`, so the lexer never emits `gt`/`lt`.

`Loc` bookkeeping (file/line/column inside error values) is diagnostic
only and omitted; error kinds and messages are kept. -/

inductive AliceSeparator where
  | openP | closeP | openB | closeB | openS | closeS
  | comma | period | colon | semi | at
  deriving Repr, DecidableEq

inductive AliceOp where
  | add | sub | mul | div | pow | mod | eqs | gt | lt
  deriving Repr, DecidableEq

inductive AliceToken where
  | identOrKeyw (s : String)
  | string (s : String)
  | number (f : ℚ) (dec : Bool)
  | sep (s : AliceSeparator)
  | op (o : AliceOp)
  deriving Repr, DecidableEq

inductive LexErr where
  | missingDelimeter (msg : String)
  | hitEOFWhileParsing (msg : String)
  | illegalEscapeSequence (msg : String)
  | numberFormatErr (msg : String)
  | unexpectedSymbol (msg : String)
  deriving Repr, DecidableEq

inductive LexRes (α : Type) where
  | ok (a : α)
  | lexErr (e : LexErr)
  | panic (msg : String)
  deriving Repr, DecidableEq

def LexRes.bind : LexRes α → (α → LexRes β) → LexRes β
  | .ok a, f => f a
  | .lexErr e, _ => .lexErr e
  | .panic m, _ => .panic m

instance : Monad LexRes where
  pure := LexRes.ok
  bind := LexRes.bind

/-- Embeds `AliceSeparator::all_chars`. -/
def sepChars : List Char := ['(', ')', '{', '}', '[', ']', ',', '.', ':', ';', '@']

/-- Embeds `AliceOp::all_chars` — note: no `>` and no `<`. -/
def opChars : List Char := ['+', '-', '*', '/', '%', '=']

def AliceSeparator.containsChar (c : Char) : Bool := sepChars.contains c

def AliceOp.containsChar (c : Char) : Bool := opChars.contains c

/-- Embeds `is_token_separator`. -/
def isTokenSeparator (c : Char) : Bool :=
  AliceSeparator.containsChar c || AliceOp.containsChar c || c == '\'' || c == '"'

/-- Embeds `char::is_whitespace` restricted to the ASCII whitespace the sources
and claims exercise. -/
def isWhite (c : Char) : Bool :=
  c == ' ' || c == '\t' || c == '\n' || c == '\r'

/-- Embeds `char::is_digit(radix)`. -/
def isDigitBase (base : Nat) (c : Char) : Bool :=
  if base = 16 then
    c.isDigit || ('a' ≤ c && c ≤ 'f') || ('A' ≤ c && c ≤ 'F')
  else if base = 2 then
    c == '0' || c == '1'
  else
    c.isDigit

def digitVal (c : Char) : Nat :=
  if c.isDigit then c.toNat - 48
  else if 'a' ≤ c && c ≤ 'f' then c.toNat - 87
  else if 'A' ≤ c && c ≤ 'F' then c.toNat - 55
  else 0

/-- Embeds `From<char> for AliceOp` (panics on a non-operator char — modelled by
`none`, and unreachable from `gobble_token`'s guard). -/
def aliceOpFromChar : Char → Option AliceOp
  | '+' => some .add
  | '-' => some .sub
  | '*' => some .mul
  | '/' => some .div
  | '%' => some .mod
  | '=' => some .eqs
  | _ => none

/-- Embeds `f64::from_str` on the strings `gobble_number` can produce in base 10:
digit runs with at most one `.` ("1.", "0." included); anything else
(an embedded `_`, a pushed non-digit) is the parse error Rust reports. -/
def parseDecCore (cs : List Char) (intPart : Nat) (seenDigit : Bool) :
    Option ℚ :=
  match cs with
  | [] => if seenDigit then some (intPart : ℚ) else none
  | c :: rest =>
    if c.isDigit then parseDecCore rest (intPart * 10 + (c.toNat - 48)) true
    else if c = '.' then
      -- fractional part: digits only
      if rest.all Char.isDigit ∧ (seenDigit ∨ rest ≠ []) then
        some ((intPart : ℚ) +
          (rest.foldl (fun acc d => acc * 10 + (d.toNat - 48)) 0 : ℚ) /
            ((10 : ℚ) ^ rest.length))
      else none
    else none

def parseDec (chars : List Char) : Option ℚ :=
  parseDecCore chars 0 false

/-- Embeds `i64::from_str_radix` on the strings `gobble_number` can produce:
digits of the radix only, overflow checked against `i64::MAX`. -/
def parseRadix (chars : List Char) (base : Nat) : Option ℚ :=
  if chars ≠ [] ∧ chars.all (isDigitBase base) then
    let v := chars.foldl (fun acc c => acc * base + digitVal c) 0
    if v < 2 ^ 63 then some (v : ℚ) else none
  else
    none

/-- Embeds `AliceLexer::parse_number`. -/
def parseNumber (s : List Char) (base : Nat) : LexRes ℚ :=
  if base = 10 then
    match parseDec s with
    | some q => .ok q
    | none => .lexErr (.numberFormatErr "invalid float literal")
  else
    match parseRadix s base with
    | some q => .ok q
    | none => .lexErr (.numberFormatErr "invalid digit found in string")

/-- Embeds `AliceLexer::gobble_string` (the opening quote is already consumed;
`endq` is the matching close quote). -/
def gobbleString (endq : Char) : List Char → String → Bool →
    LexRes (AliceToken × List Char)
  | [], _, _ =>
    .lexErr (.missingDelimeter ("missing string delimiter '" ++
      String.singleton endq ++ "'"))
  | c :: rest, s, escaped =>
    if escaped then
      if c = '\\' ∨ c = '"' ∨ c = '\'' then gobbleString endq rest (s.push c) false
      else if c = 'n' then gobbleString endq rest (s.push '\n') false
      else if c = 'r' then gobbleString endq rest (s.push '\r') false
      else if c = 't' then gobbleString endq rest (s.push '\t') false
      else .lexErr (.illegalEscapeSequence ("unknown escape sequence \\" ++
        String.singleton c))
    else if c = endq then .ok (.string s, rest)
    else if c = '\\' then gobbleString endq rest s true
    else gobbleString endq rest (s.push c) false

/-- The scan loop of `gobble_number` (after base detection): peek-driven,
so the terminating separator/whitespace is *not* consumed here. -/
def gobbleNumberLoop (base : Nat) : List Char → List Char → Bool →
    LexRes (AliceToken × List Char)
  | [], s, hadPeriod => do
    let q ← parseNumber s.reverse base
    .ok (.number q hadPeriod, [])
  | c :: rest, s, hadPeriod =>
    if isDigitBase base c then gobbleNumberLoop base rest (c :: s) hadPeriod
    else if c = '_' then gobbleNumberLoop base rest s hadPeriod
    else if c = '.' then
      if hadPeriod then
        .lexErr (.numberFormatErr "multiple period in number literal!")
      else
        gobbleNumberLoop base rest ('.' :: s) true
    else if isTokenSeparator c || isWhite c then do
      let q ← parseNumber s.reverse base
      .ok (.number q hadPeriod, c :: rest)
    else
      .lexErr (.numberFormatErr ("unexpected symbol in number literal :'" ++
        String.singleton c ++ "'"))

/-- Embeds `AliceLexer::gobble_number`.  The base-detection `match` uses
`iter.next()`, so when `0` is immediately followed by a token separator or
whitespace that character is consumed and `Number(0.0)` is returned
without emitting the separator's own token. -/
def gobbleNumber (start : Char) (chars : List Char) :
    LexRes (AliceToken × List Char) :=
  if start = '0' then
    match chars with
    | [] => .ok (.number 0 false, [])
    | b :: rest =>
      if b = 'x' then gobbleNumberLoop 16 rest ['0'] false
      else if b = 'b' then gobbleNumberLoop 2 rest ['0'] false
      else if isTokenSeparator b || isWhite b then .ok (.number 0 false, rest)
      else if b = '_' ∨ b = '.' ∨ ¬b.isDigit then
        gobbleNumberLoop 10 rest [b, '0'] false
      else
        .lexErr (.numberFormatErr ("illegal base hint " ++ String.singleton b))
  else
    gobbleNumberLoop 10 chars [start] false

/-- Embeds `AliceLexer::gobble_operator`: `**` compounds to `Pow`; otherwise
`start.into()` (whose impossible branch is the `From` panic). -/
def gobbleOperatorLex (start : Char) (chars : List Char) :
    LexRes (AliceToken × List Char) :=
  match chars with
  | next :: rest =>
    if start = '*' ∧ next = '*' then .ok (.op .pow, rest)
    else
      match aliceOpFromChar start with
      | some o => .ok (.op o, chars)
      | none => .panic "cannot convert into an AliceOp"
  | [] =>
    match aliceOpFromChar start with
    | some o => .ok (.op o, [])
    | none => .panic "cannot convert into an AliceOp"

/-- Embeds `AliceLexer::gobble_separator`. -/
def gobbleSeparator (c : Char) (chars : List Char) :
    LexRes (AliceToken × List Char) :=
  match c with
  | '(' => .ok (.sep .openP, chars)
  | ')' => .ok (.sep .closeP, chars)
  | '{' => .ok (.sep .openB, chars)
  | '}' => .ok (.sep .closeB, chars)
  | '[' => .ok (.sep .openS, chars)
  | ']' => .ok (.sep .closeS, chars)
  | ',' => .ok (.sep .comma, chars)
  | '.' => .ok (.sep .period, chars)
  | ':' => .ok (.sep .colon, chars)
  | ';' => .ok (.sep .semi, chars)
  | '@' => .ok (.sep .at, chars)
  | _ => .lexErr (.unexpectedSymbol ("unexpected separator '" ++
      String.singleton c ++ "'"))

/-- Embeds `AliceLexer::gobble_ident_or_keyw`: accumulate until (not consuming)
a token separator or whitespace. -/
def gobbleIdentOrKeyw (start : Char) : List Char → String →
    LexRes (AliceToken × List Char)
  | [], s => .ok (.identOrKeyw s, [])
  | c :: rest, s =>
    if isTokenSeparator c || isWhite c then .ok (.identOrKeyw s, c :: rest)
    else gobbleIdentOrKeyw start rest (s.push c)

/-- Embeds `AliceLexer::gobble_token`: dispatch on the first character. -/
def gobbleTokenLex (start : Char) (chars : List Char) :
    LexRes (AliceToken × List Char) :=
  if start = '"' ∨ start = '\'' then gobbleString start chars "" false
  else if start.isDigit then gobbleNumber start chars
  else if AliceOp.containsChar start then gobbleOperatorLex start chars
  else if AliceSeparator.containsChar start then gobbleSeparator start chars
  else gobbleIdentOrKeyw start chars (String.singleton start)

/-- The `tokenize` loop, fuelled (each iteration consumes at least the
start character, so `|src| + 1` fuel always suffices). -/
def tokenizeLoop : Nat → List Char → LexRes (List AliceToken)
  | 0, _ => .panic "lexer fuel exhausted"
  | _ + 1, [] => .ok []
  | fuel + 1, c :: rest =>
    if isWhite c then tokenizeLoop fuel rest
    else do
      let (tok, rest') ← gobbleTokenLex c rest
      let toks ← tokenizeLoop fuel rest'
      .ok (tok :: toks)

/-- Embeds `AliceLexer::tokenize`. -/
def tokenize (src : String) : LexRes (List AliceToken) :=
  tokenizeLoop (src.length + 1) src.toList

/-! ## The parser — `src/parser.rs` + `src/keyword.rs` + `src/object.rs`

Errors are the parser's `Err(String)`; `todo!()` arms are `panic`.  The
recursion through nested blocks is fuelled; every fuelled call steps the
fuel down, and `parse` supplies an amount that is ample for its token
list. -/

inductive Keyword where
  | let_ | fun_ | true_ | false_ | if_ | else_
  deriving Repr, DecidableEq

/-- Embeds `keyword::keywords()`. -/
def keywordOf : String → Option Keyword
  | "let" => some .let_
  | "fun" => some .fun_
  | "true" => some .true_
  | "false" => some .false_
  | "if" => some .if_
  | "else" => some .else_
  | _ => none

/-- Embeds `AliceVal::type_name`. -/
def AliceVal.typeName : AliceVal → String
  | .string _ => "string"
  | .bool _ => "bool"
  | .int _ => "int"
  | .float _ => "float"
  | .object (some o) => o.typeName
  | .object none => "object"
  | .function _ => "function"

/-- Embeds `AliceVal::for_type_name`. -/
def forTypeName (s : String) : Res AliceVal :=
  match s with
  | "string" => .ok (.string none)
  | "bool" => .ok (.bool none)
  | "int" => .ok (.int none)
  | "float" => .ok (.float none)
  | _ => .err ("unknown type name " ++ s)

/-- Embeds `type_bit(&AliceVal::for_type_name(name)?)` as used by the parser
(never reaches `type_bit`'s function panic: `for_type_name` only returns
the four primitives). -/
def tyBitForName (s : String) : Res Nat := do
  let v ← forTypeName s
  match typeBit v with
  | some t => .ok t
  | none => .panic "function should not be allowed on stack"

/-- Embeds `type_bit_any_allowed`. -/
def typeBitAnyAllowed (s : String) : Res Nat :=
  if s = "any" then .ok ANY else tyBitForName s

/-- Embeds `TypeCheckError::prefix`, applied through `map_err`. -/
def prefixErr (p : String) : Res α → Res α
  | .err e => .err (p ++ e)
  | r => r

/-- Embeds `AliceFun::type_check` (`src/object.rs`).  It calls `check_fun`, which
the snapshot references but does not define in `type_check.rs`;
`check_rc` is the checker entry point with exactly that signature and
role, so the call is embedded as `checkRc`. -/
def funTypeCheck (fuel : Nat) (f : AliceFun) : Res Unit := do
  let ts := patternPush f.args TypeStack.new
  let ts ← prefixErr "Function signature promise not correct: " (checkRc fuel f.body ts)
  if f.returnType = 0 ∧ ts.vals.length = 0 then
    .ok ()
  else if ts.vals.length ≠ 1 then
    .err "functions can only have one return value!"
  else if ts.vals.head? ≠ some f.returnType then
    .err "function has wrong return type!"
  else
    .ok ()

/-- Embeds `AliceParser::maybe_gobble_statement`: the built-in words. -/
def maybeGobbleStatement : String → Option Statement
  | "println" => some .println
  | "print" => some .print
  | "pstack" => some .pstack
  | "exit" => some .exit
  | "okexit" => some .okexit
  | "drop" => some .drop
  | "swap" => some .swap
  | "dup" => some .dup
  | "over" => some .over
  | "rot" => some .rot
  | "clear" => some .clear
  | _ => none

/-- Embeds `AliceParser::gobble_let`.  Note: the declared grammar
`let = "let", ident, ":", type, ["=", literal]` is in the source only as
a doc comment — the implementation stops after the type and never
consumes an `"=" literal` part, always building `literal: None`. -/
def gobbleLet (iter : List AliceToken) : Res (Statement × List AliceToken) :=
  match iter with
  | .identOrKeyw ident :: .sep .colon :: .identOrKeyw ty :: rest =>
    if (keywordOf ident).isSome then
      .err (ident ++ " is a reserved keyword, can't bind a variable to it")
    else do
      let bit ← tyBitForName ty
      .ok (.letS ident bit none, rest)
  | _ => .err "let syntax: 'let' ident ':' type ['=' literal]"

/-- Embeds `AliceParser::parse_fun_return_after_dash`.  It demands an
`AliceToken::Op(AliceOp::Gt)` after the `-` — a token the lexer can never
produce (`>` is not in `AliceOp::all_chars`). -/
def parseFunReturnAfterDash (iter : List AliceToken) :
    Res (Nat × List AliceToken) :=
  match iter with
  | .op .gt :: rest =>
    match rest with
    | .identOrKeyw ty :: .sep .openB :: rest' => do
      let bit ← tyBitForName ty
      .ok (bit, rest')
    | _ => .err "return type and function body expected"
  | _ =>
    .err "unexpected token after `'fun' ident ... -`, you probably meant to put `->`"

/-- Embeds `AliceParser::maybe_at_conversion`. -/
def maybeAtConversion (iter : List AliceToken) :
    Res (Option AliceVal × List AliceToken) :=
  match iter with
  | .sep .at :: rest =>
    match rest with
    | [] => .err "missing target type for @ conversion"
    | .identOrKeyw iok :: rest' =>
      match forTypeName iok with
      | .ok ty => .ok (some ty, rest')
      | _ => .err ("unexpected token '" ++ iok ++
          "' that is not a type; @ conversion expects target type")
    | _ :: _ => .err "unexpected token; @ conversion expects target type"
  | _ => .ok (none, iter)

/-- Embeds `AliceParser::gobble_string_literal` (the non-string `@` conversion
arm is `todo!()`). -/
def gobbleStringLiteral (s : String) (iter : List AliceToken) :
    Res (Statement × List AliceToken) := do
  let (conv, rest) ← maybeAtConversion iter
  match conv with
  | some (.string _) => .ok (.push (.string (some s)), rest)
  | some _ => .panic "not yet implemented"
  | none => .ok (.push (.string (some s)), rest)

/-- Embeds `AliceParser::gobble_number_literal`: `@`-conversion or the
`is_decimal` flag decides int vs float (`f as i64` truncates). -/
def gobbleNumberLiteral (f : ℚ) (dec : Bool) (iter : List AliceToken) :
    Res (Statement × List AliceToken) := do
  let (conv, rest) ← maybeAtConversion iter
  match conv with
  | some (.float _) => .ok (.push (.float (some f)), rest)
  | some (.int _) => .ok (.push (.int (some (ratTrunc f))), rest)
  | some (.string _) => .ok (.push (.string (some (toString f))), rest)
  | none =>
    if dec then .ok (.push (.float (some f)), rest)
    else .ok (.push (.int (some (ratTrunc f))), rest)
  | some val => .err ("cannot convert number literal to " ++ val.typeName)

/-- Embeds `AliceParser::gobble_operator`: `Gt` and `Lt` are `todo!()`, a bare
`=` is an error. -/
def gobbleOperator (op : AliceOp) (iter : List AliceToken) :
    Res (Statement × List AliceToken) :=
  match op with
  | .add => .ok (.add, iter)
  | .sub => .ok (.sub, iter)
  | .mul => .ok (.mul, iter)
  | .div => .ok (.div, iter)
  | .pow => .ok (.pow, iter)
  | .mod => .ok (.mod, iter)
  | .gt => .panic "not yet implemented"
  | .lt => .panic "not yet implemented"
  | .eqs => .err "unexpected equal sign"

/-- Embeds `AliceParser::gobble_ident`: `IDENT ( )` is a call, bare `IDENT`
pushes from the table. -/
def gobbleIdent (ident : String) (iter : List AliceToken) :
    Res (Statement × List AliceToken) :=
  match iter with
  | .sep .openP :: rest =>
    match rest with
    | .sep .closeP :: rest' => .ok (.executeFun ident, rest')
    | _ => .err "closing parentheses in function call missing!"
  | _ => .ok (.pushFromTable ident, iter)

/-- The argument-list loop of `gobble_fun` case 3 (`comma_ok` tracks
double commas); stops at `-` (return type) or `{`. -/
def gobbleFunArgs : List AliceToken → List Nat → Bool →
    Res (List Nat × Nat × List AliceToken)
  | [], args, _ => .ok (args, 0, [])
  | ty :: rest, args, commaOk =>
    match ty with
    | .identOrKeyw ty => do
      let bit ← typeBitAnyAllowed ty
      gobbleFunArgs rest (args ++ [bit]) true
    | .sep .comma =>
      if commaOk then gobbleFunArgs rest args false
      else .err "Unexpected double comma in function signature"
    | .op .sub => do
      let (ret, rest') ← parseFunReturnAfterDash rest
      .ok (args, ret, rest')
    | .sep .openB => .ok (args, 0, rest)
    | _ => .err "Unexpected token in function signature"

mutual

/-- Embeds `AliceParser::gobble_token` — the `Sep` arm is `todo!()`. -/
def gobbleToken : Nat → AliceToken → List AliceToken →
    Res (Statement × List AliceToken)
  | 0, _, _ => .panic "parser fuel exhausted"
  | fuel + 1, tok, iter =>
    match tok with
    | .identOrKeyw iok => gobbleIdentOrKw fuel iok iter
    | .string s => gobbleStringLiteral s iter
    | .number f dec => gobbleNumberLiteral f dec iter
    | .op o => gobbleOperator o iter
    | .sep _ => .panic "not yet implemented"

/-- Embeds `AliceParser::gobble_ident_or_kw`. -/
def gobbleIdentOrKw : Nat → String → List AliceToken →
    Res (Statement × List AliceToken)
  | 0, _, _ => .panic "parser fuel exhausted"
  | fuel + 1, iok, iter =>
    match keywordOf iok with
    | some kw => gobbleKw fuel kw iter
    | none =>
      match maybeGobbleStatement iok with
      | some st => .ok (st, iter)
      | none => gobbleIdent iok iter

/-- Embeds `AliceParser::gobble_kw` — the `If`/`Else` arms are `todo!()`. -/
def gobbleKw : Nat → Keyword → List AliceToken →
    Res (Statement × List AliceToken)
  | 0, _, _ => .panic "parser fuel exhausted"
  | fuel + 1, kw, iter =>
    match kw with
    | .true_ => .ok (.push (.bool (some true)), iter)
    | .false_ => .ok (.push (.bool (some false)), iter)
    | .let_ => gobbleLet iter
    | .fun_ => gobbleFun fuel iter
    | .if_ => .panic "not yet implemented"
    | .else_ => .panic "not yet implemented"

/-- Embeds `AliceParser::gobble_fun`: the three signature shapes; the body is
type-checked at definition time via `AliceFun::type_check`. -/
def gobbleFun : Nat → List AliceToken → Res (Statement × List AliceToken)
  | 0, _ => .panic "parser fuel exhausted"
  | fuel + 1, iter =>
    match iter with
    | .identOrKeyw ident :: rest =>
      match rest with
      | .sep .openB :: rest' => do
        let (body, rest'') ← gobbleBlock fuel rest'
        let f := AliceFun.mk [] 0 body
        let _ ← funTypeCheck fuel f
        .ok (.funS ident f, rest'')
      | .op .sub :: rest' => do
        let (returnType, rest'') ← parseFunReturnAfterDash rest'
        let (body, rest''') ← gobbleBlock fuel rest''
        let f := AliceFun.mk [] returnType body
        let _ ← funTypeCheck fuel f
        .ok (.funS ident f, rest''')
      | .sep .colon :: rest' => do
        let (args, returnType, rest'') ← gobbleFunArgs rest' [] false
        if args.isEmpty then
          .err "expected argument type(s) after `'fun' ident ':'`"
        else do
          let (body, rest''') ← gobbleBlock fuel rest''
          let f := AliceFun.mk args returnType body
          let _ ← funTypeCheck fuel f
          .ok (.funS ident f, rest''')
      | _ => .err "after `'fun' ident`, expected one of: `'->'` `':'` `'\x7b'`"
    | _ => .err "fun syntax: 'fun' ident '\x7b' statement* '\x7d'"

/-- Embeds `AliceParser::gobble_block`: statements until the matching `}`. -/
def gobbleBlock : Nat → List AliceToken →
    Res (List Statement × List AliceToken)
  | 0, _ => .panic "parser fuel exhausted"
  | fuel + 1, iter =>
    match iter with
    | [] => .err "missing delimiter: hit EOF while searching for '\x7d'"
    | .sep .closeB :: rest => .ok ([], rest)
    | tok :: rest => do
      let (s, rest') ← gobbleToken fuel tok rest
      let (vec, rest'') ← gobbleBlock fuel rest'
      .ok (s :: vec, rest'')

end

/-- The statement loop of `AliceParser::parse`. -/
def parseLoop : Nat → List AliceToken → Res (List Statement)
  | 0, _ => .panic "parser fuel exhausted"
  | _ + 1, [] => .ok []
  | fuel + 1, tok :: rest => do
    let (s, rest') ← gobbleToken fuel tok rest
    let ss ← parseLoop fuel rest'
    .ok (s :: ss)

/-- Embeds `AliceParser::parse`: gobble all statements, then run the batch check
(`prev = None`) or the interactive check against the caller's persistent
`TypeStack` (`prev = Some`), whose updated state is returned. -/
def parse (tokens : List AliceToken) (prev : Option TypeStack) :
    Res (List Statement × Option TypeStack) := do
  let statements ← parseLoop (8 * (tokens.length + 1)) tokens
  match prev with
  | some ts => do
    let ts' ← checkInteractive (32 * (tokens.length + 1)) ts statements
    .ok (statements, some ts')
  | none => do
    let _ ← check (32 * (tokens.length + 1)) statements
    .ok (statements, none)

/-! ## Shared unfolding lemmas -/

theorem Res.ok_bind (a : α) (f : α → Res β) : Res.bind (.ok a) f = f a := rfl

theorem Res.err_bind (e : String) (f : α → Res β) :
    Res.bind (.err e) f = .err e := rfl

theorem Res.panic_bind (m : String) (f : α → Res β) :
    Res.bind (.panic m) f = .panic m := rfl

theorem Res.exit_bind (c : Int) (f : α → Res β) :
    Res.bind (.exit c) f = .exit c := rfl

theorem Res.bind_eq_ok {r : Res α} {f : α → Res β} {b : β}
    (h : Res.bind r f = .ok b) : ∃ a, r = .ok a ∧ f a = .ok b := by
  cases r with
  | ok a => exact ⟨a, rfl, h⟩
  | err e => simp [Res.bind] at h
  | panic m => simp [Res.bind] at h
  | exit c => simp [Res.bind] at h

/-! ## Claim theorems -/

/-- C1.  *Checker soundness (batch)* fails on the code: the statement list
`["foo" 1.0 < println]` is accepted by the batch checker `check` (because
`cmp_statement!`'s guard `a == FLOAT || a == INT && a == b` accepts a
`FLOAT` on top of *anything*), yet executing it from the empty operand
stack and empty table panics inside the comparison statement with the
executor's own "fix your type checker" message — a type mismatch in a
comparison statement of exactly the kind the claim rules out. -/
theorem check_accepts_comparison_that_panics :
    check 100 [Statement.push (AliceVal.string (some "foo")),
           Statement.push (AliceVal.float (some 1)),
           Statement.lt, Statement.println] = Res.ok () ∧
    execList 10 [Statement.push (AliceVal.string (some "foo")),
           Statement.push (AliceVal.float (some 1)),
           Statement.lt, Statement.println] ⟨[], [], [], []⟩ =
      Res.panic "fix your type checker, dumbass" := by
  exact ⟨rfl, rfl⟩

/-- C5.  The program `let x : int = 7 x 2 ** println` does *not* run: the
lexer produces the expected tokens, but `gobble_let` never consumes the
`= literal` tail (contradicting its own doc-comment grammar
`let = "let", ident, ":", type, ["=", literal]`), so the `=` token falls
through to `gobble_operator`, which rejects a bare `Eqs` token; `parse`
therefore returns `Err("unexpected equal sign")` instead of a program
that prints `49`. -/
theorem let_default_literal_program_is_rejected :
    tokenize "let x : int = 7 x 2 ** println" =
      LexRes.ok [AliceToken.identOrKeyw "let", AliceToken.identOrKeyw "x",
        AliceToken.sep AliceSeparator.colon, AliceToken.identOrKeyw "int",
        AliceToken.op AliceOp.eqs, AliceToken.number 7 false,
        AliceToken.identOrKeyw "x", AliceToken.number 2 false,
        AliceToken.op AliceOp.pow, AliceToken.identOrKeyw "println"] ∧
    parse [AliceToken.identOrKeyw "let", AliceToken.identOrKeyw "x",
        AliceToken.sep AliceSeparator.colon, AliceToken.identOrKeyw "int",
        AliceToken.op AliceOp.eqs, AliceToken.number 7 false,
        AliceToken.identOrKeyw "x", AliceToken.number 2 false,
        AliceToken.op AliceOp.pow, AliceToken.identOrKeyw "println"] none =
      Res.err "unexpected equal sign" := by
  exact ⟨by decide, rfl⟩

/-- C6.  The comparison custom checks do *not* require both operands to be
`INT`/`INT` or `FLOAT`/`FLOAT`: with `FLOAT` on top and `STRING` beneath
(type stack written top-first), all four of `lt`/`ltEqs`/`gt`/`gtEqs`
succeed and push `BOOL`, because the guard
`a == FLOAT || a == INT && a == b` short-circuits on the top operand —
contradicting both the claim and the check's own error message. -/
theorem cmp_accepts_float_over_string :
    customTypeCheck 1 Statement.lt ⟨[FLOAT, STRING], [], []⟩ =
      Res.ok ⟨[BOOL], [], []⟩ ∧
    customTypeCheck 1 Statement.ltEqs ⟨[FLOAT, STRING], [], []⟩ =
      Res.ok ⟨[BOOL], [], []⟩ ∧
    customTypeCheck 1 Statement.gt ⟨[FLOAT, STRING], [], []⟩ =
      Res.ok ⟨[BOOL], [], []⟩ ∧
    customTypeCheck 1 Statement.gtEqs ⟨[FLOAT, STRING], [], []⟩ =
      Res.ok ⟨[BOOL], [], []⟩ := by
  exact ⟨rfl, rfl, rfl, rfl⟩

/-- C8.  The lexer's operator alphabet is `+ - * / % =` plus the compound
`**`; `>` and `<` are *not* operator characters and lex as identifier
tokens, and the parser's `Gt`/`Lt` operator arms are `todo!()` panics
rather than the greater-than/less-than statements the claim describes. -/
theorem gt_lt_lex_as_identifiers_and_parser_is_todo :
    tokenize ">" = LexRes.ok [AliceToken.identOrKeyw ">"] ∧
    tokenize "<" = LexRes.ok [AliceToken.identOrKeyw "<"] ∧
    gobbleOperator AliceOp.gt [] = Res.panic "not yet implemented" ∧
    gobbleOperator AliceOp.lt [] = Res.panic "not yet implemented" ∧
    tokenize "+" = LexRes.ok [AliceToken.op AliceOp.add] ∧
    tokenize "-" = LexRes.ok [AliceToken.op AliceOp.sub] ∧
    tokenize "*" = LexRes.ok [AliceToken.op AliceOp.mul] ∧
    tokenize "/" = LexRes.ok [AliceToken.op AliceOp.div] ∧
    tokenize "%" = LexRes.ok [AliceToken.op AliceOp.mod] ∧
    tokenize "=" = LexRes.ok [AliceToken.op AliceOp.eqs] ∧
    tokenize "**" = LexRes.ok [AliceToken.op AliceOp.pow] := by
  refine ⟨by decide, by decide, rfl, rfl, by decide, by decide, by decide,
    by decide, by decide, by decide, by decide⟩

/-- C2 (counterexample).  An `if` whose body is a single `swap` is accepted
by the checker (the body only has to preserve the type-stack *depth*), yet
executing it on a matching operand stack permutes the two slots below the
popped `BOOL`: the resulting per-slot types `[INT, STRING]` (top-first)
differ from the initial `[STRING, INT]`, refuting the claim's "same
per-slot types". -/
theorem if_swap_changes_slot_types :
    checkStep 10 (Statement.ifS [Statement.swap]) ⟨[BOOL, STRING, INT], [], []⟩ =
      Res.ok ⟨[INT, STRING], [], []⟩ ∧
    exec 10 (Statement.ifS [Statement.swap])
      ⟨[AliceVal.bool (some true), AliceVal.string (some "a"),
        AliceVal.int (some 1)], [], [], []⟩ =
      Res.ok ⟨[AliceVal.int (some 1), AliceVal.string (some "a")], [], [], []⟩ ∧
    [AliceVal.int (some 1), AliceVal.string (some "a")].map typeBit ≠
      [AliceVal.string (some "a"), AliceVal.int (some 1)].map typeBit := by
  refine ⟨rfl, rfl, by decide⟩

/-- C2 (amended).  For every `if BODY` the checker enforces only that the
body leaves the type-stack *depth* unchanged, so any accepted processing
of the statement ends with exactly one slot fewer (the popped `BOOL`)
than it started with; the per-slot types of the operand stack after
execution need not match those before (see the swap counterexample). -/
theorem if_accepted_preserves_depth (fuel : Nat) (body : List Statement)
    (ts ts' : TypeStack)
    (h : checkStep fuel (Statement.ifS body) ts = Res.ok ts') :
    ts'.vals.length + 1 = ts.vals.length := by
  match fuel with
  | 0 => simp [checkStep] at h
  | f + 1 =>
    obtain ⟨vals, vars, funs⟩ := ts
    match vals with
    | [] => simp [checkStep, inPattern, patternTypeCheck, StackPattern.single,
        Res.bind, bind] at h
    | v :: vs =>
      simp only [checkStep, inPattern, StackPattern.single, patternTypeCheck,
        bind, Res.bind] at h
      by_cases hv : Nat.land v BOOL ≠ v
      · simp [hv, Res.bind] at h
      · simp only [hv, if_neg, ite_false, ite_true, if_pos, not_not] at h
        match f with
        | 0 => simp [customTypeCheck, Res.bind] at h
        | f' + 1 =>
          simp only [customTypeCheck, bind, Res.bind] at h
          rcases hrc : checkRc f' body ⟨vs, vars, funs⟩ with ts'' | e | m | c <;>
            rw [hrc] at h <;> simp only [Res.bind] at h
          · by_cases hl : ts''.vals.length ≠ vs.length
            · simp [hl] at h
            · simp only [hl, ite_false, ite_true, if_neg, not_not,
                outPattern, Res.bind] at h
              cases h
              simp only [patternPush, not_not] at hl ⊢
              simp [hl]
          · cases h
          · cases h
          · cases h

/-- C2 (witness). -/
theorem if_accepted_preserves_depth_witness :
    (⟨[], [], []⟩ : TypeStack).vals.length + 1 =
      (⟨[BOOL], [], []⟩ : TypeStack).vals.length := by
  exact if_accepted_preserves_depth 10 [] ⟨[BOOL], [], []⟩ ⟨[], [], []⟩ rfl

/-- C3.  Batch mode accepts exactly when the abstract `vals` stack is
empty after processing every statement; a non-empty final `vals` yields
the "`n` excess values" type error; interactive mode never imposes the
emptiness test and returns the processed state unchanged, so a surplus is
preserved for the next line. -/
theorem batch_iff_empty_interactive_preserves (fuel : Nat)
    (stmts : List Statement) :
    (check fuel stmts = Res.ok () ↔
      ∃ ts, checkRc fuel stmts TypeStack.new = Res.ok ts ∧ ts.vals = []) ∧
    (∀ ts, checkRc fuel stmts TypeStack.new = Res.ok ts → ts.vals ≠ [] →
      check fuel stmts =
        Res.err (toString ts.vals.length ++ " excess values on the stack!")) ∧
    (∀ ts0 ts, checkRc fuel stmts ts0 = Res.ok ts →
      checkInteractive fuel ts0 stmts = Res.ok ts) := by
  refine ⟨⟨?_, ?_⟩, ?_, ?_⟩
  · intro h
    unfold check at h
    rcases hrc : checkRc fuel stmts TypeStack.new with ts | e | m | c <;>
      rw [hrc] at h <;> simp only [bind, Res.bind] at h
    · refine ⟨ts, rfl, ?_⟩
      rcases hv : ts.vals with _ | ⟨a, l⟩
      · rfl
      · rw [hv] at h; simp at h
    · cases h
    · cases h
    · cases h
  · rintro ⟨ts, hts, hnil⟩
    unfold check
    rw [hts]
    simp [bind, Res.bind, hnil]
  · intro ts hts hne
    unfold check
    rw [hts]
    rcases hv : ts.vals with _ | ⟨a, l⟩
    · exact absurd hv hne
    · simp [bind, Res.bind, hv]
  · intro ts0 ts h
    simpa [checkInteractive] using h

/-- C3 (witness). -/
theorem batch_iff_empty_interactive_preserves_witness :
    check 100 [Statement.push (AliceVal.int (some 1))] =
      Res.err "1 excess values on the stack!" ∧
    checkInteractive 100 TypeStack.new [Statement.push (AliceVal.int (some 1))] =
      Res.ok ⟨[INT], [], []⟩ := by
  have h := batch_iff_empty_interactive_preserves 100
    [Statement.push (AliceVal.int (some 1))]
  constructor
  · have h1 := h.2.1 ⟨[INT], [], []⟩ rfl (by decide)
    rw [h1]
    rfl
  · exact h.2.2 TypeStack.new ⟨[INT], [], []⟩ rfl

/-- C4 (counterexample).  A `let` statement carrying a default literal
still pops one slot from the type stack: `in_pattern` is unconditionally
`single(declared type)`, so on `[INT]` the slot is consumed (leaving `[]`,
not `[INT]`), and on an empty type stack the checker errors even though,
per the claim, nothing should be popped. -/
theorem let_literal_still_pops :
    checkStep 10 (Statement.letS "x" INT (some (AliceVal.int (some 7))))
      ⟨[INT], [], []⟩ = Res.ok ⟨[], [("x", INT)], []⟩ ∧
    checkStep 10 (Statement.letS "x" INT (some (AliceVal.int (some 7))))
      ⟨[], [], []⟩ = Res.err "too few values on stack when this executes" := by
  exact ⟨rfl, rfl⟩

/-- C4 (amended).  The checker records the declared type in `vars` and
*always* pops exactly one slot matching the declared type — also when a
default literal is given; at execution, a `let` with a default literal
stores the literal in the table without touching the operand stack. -/
theorem let_always_pops_literal_skips_stack (fuel : Nat) (ident : String)
    (ty : Nat) (lit : Option AliceVal) (ts : TypeStack) (v : Nat)
    (rest : List Nat) (hv : ts.vals = v :: rest) (hm : Nat.land v ty = v) :
    checkStep (fuel + 2) (Statement.letS ident ty lit) ts =
      Res.ok ⟨rest, putMap ident ty ts.vars, ts.funs⟩ ∧
    (∀ (st : ExecState) (l : AliceVal),
      exec (fuel + 1) (Statement.letS ident ty (some l)) st =
        Res.ok { st with table := putMap ident l st.table }) := by
  constructor
  · obtain ⟨vals, vars, funs⟩ := ts
    simp only at hv
    subst hv
    simp [checkStep, inPattern, StackPattern.single, patternTypeCheck, hm,
      customTypeCheck, outPattern, patternPush, bind, Res.bind]
  · intro st l
    rfl

/-- C4 (witness). -/
theorem let_always_pops_literal_skips_stack_witness :
    checkStep 2 (Statement.letS "x" INT none) ⟨[INT], [], []⟩ =
      Res.ok ⟨[], [("x", INT)], []⟩ ∧
    exec 1 (Statement.letS "x" INT (some (AliceVal.int (some 7))))
      ⟨[], [], [], []⟩ =
      Res.ok ⟨[], [("x", AliceVal.int (some 7))], [], []⟩ := by
  have h := let_always_pops_literal_skips_stack 0 "x" INT none
    ⟨[INT], [], []⟩ INT [] rfl (by decide)
  exact ⟨h.1, h.2 ⟨[], [], [], []⟩ (AliceVal.int (some 7))⟩

/-- C7 (counterexample).  Calling `f` whose body reads `f` from the table
succeeds: the executor reinserts the `Function` *before* running the body,
so the body's `PushFromTableStatement("f")` finds the binding and pushes
the function value (were the identifier absent for the whole body, as the
claim states, this lookup would `unwrap`-panic). -/
theorem call_body_finds_function_in_table :
    exec 10 (Statement.executeFun "f")
      ⟨[], [("f", AliceVal.function (some (AliceFun.mk [] 0
        [Statement.pushFromTable "f"])))], [], []⟩ =
      Res.ok ⟨[AliceVal.function (some (AliceFun.mk [] 0
          [Statement.pushFromTable "f"]))],
        [("f", AliceVal.function (some (AliceFun.mk [] 0
          [Statement.pushFromTable "f"])))], [], []⟩ := by
  rfl

/-- C7 (amended).  Executing a call takes the `Function` out of the table
and immediately reinserts it, *before* the body runs: the body executes
against a table that still binds the called identifier to the same
`Function` value, and the table is not touched again afterwards. -/
theorem call_reinserts_function_before_body (fuel : Nat) (i : String)
    (st : ExecState) (f : AliceFun)
    (h : lookupMap i st.table = some (AliceVal.function (some f))) :
    exec (fuel + 1) (Statement.executeFun i) st =
      execList fuel f.body
        { st with
          table := putMap i (AliceVal.function (some f)) (eraseMap i st.table) } ∧
    lookupMap i (putMap i (AliceVal.function (some f)) (eraseMap i st.table)) =
      some (AliceVal.function (some f)) := by
  constructor
  · simp only [exec, h]
  · simp [lookupMap, putMap]

/-- C7 (witness). -/
theorem call_reinserts_function_before_body_witness :
    exec 5 (Statement.executeFun "g")
      ⟨[], [("g", AliceVal.function (some (AliceFun.mk [] 0 [])))], [], []⟩ =
      execList 4 []
        ⟨[], [("g", AliceVal.function (some (AliceFun.mk [] 0 [])))], [], []⟩ ∧
    lookupMap "g" [("g", AliceVal.function (some (AliceFun.mk [] 0 [])))] =
      some (AliceVal.function (some (AliceFun.mk [] 0 []))) := by
  have h := call_reinserts_function_before_body 4 "g"
    ⟨[], [("g", AliceVal.function (some (AliceFun.mk [] 0 [])))], [], []⟩
    (AliceFun.mk [] 0 []) rfl
  exact ⟨h.1, by simpa using h.2⟩

/-- C9.  Type-checking an `if` arm mutates the shared checker state in
place (an accepted `if` body's result — `vars` and `funs` changes
included — *is* the state `check_rc` left), the `TypeStack` equality used
by `if-else` compares only the `vals` sequences, and concretely an
`if-else` whose then-arm binds `y` via `let` and whose else-arm merely
drops is accepted, leaving `y ↦ INT` recorded in `vars` for all later
statements regardless of the branch taken at runtime. -/
theorem if_arms_mutate_shared_state_eq_ignores_maps :
    (∀ (fuel : Nat) (body : List Statement) (ts ts' : TypeStack),
      customTypeCheck (fuel + 1) (Statement.ifS body) ts = Res.ok ts' →
      checkRc fuel body ts = Res.ok ts') ∧
    (∀ ts1 ts2 : TypeStack, ts1.vals = ts2.vals → ts1.beq ts2 = true) ∧
    checkStep 10 (Statement.ifElse [Statement.letS "y" INT none]
        [Statement.drop]) ⟨[BOOL, INT], [], []⟩ =
      Res.ok ⟨[], [("y", INT)], []⟩ := by
  refine ⟨?_, ?_, rfl⟩
  · intro fuel body ts ts' h
    simp only [customTypeCheck, bind, Res.bind] at h
    rcases hrc : checkRc fuel body ts with ts'' | e | m | c <;>
      rw [hrc] at h <;> simp only [Res.bind] at h
    · by_cases hl : ts''.vals.length ≠ ts.vals.length
      · simp [hl] at h
      · simp only [hl, ite_false, ite_true, if_neg, not_not] at h
        cases h
        rfl
    · cases h
    · cases h
    · cases h
  · intro ts1 ts2 h12
    simp [TypeStack.beq, h12]

/-- C9 (witness). -/
theorem if_arms_mutate_shared_state_eq_ignores_maps_witness :
    checkRc 3 [] TypeStack.new = Res.ok TypeStack.new ∧
    TypeStack.beq ⟨[], [("a", INT)], []⟩ ⟨[], [], []⟩ = true := by
  have h := if_arms_mutate_shared_state_eq_ignores_maps
  exact ⟨h.1 3 [] TypeStack.new TypeStack.new rfl,
    h.2.1 ⟨[], [("a", INT)], []⟩ ⟨[], [], []⟩ rfl⟩

/-- C10.  When `0` is immediately followed by any token-separator
character, `gobble_number`'s base-detection `match` (which uses
`iter.next()`, not `peek`) consumes that character and returns
`Number(0.0)` without emitting the separator's token: lexing the
two-character input yields exactly the one number token. -/
theorem zero_then_separator_yields_one_token (c : Char)
    (h : AliceSeparator.containsChar c = true) :
    tokenize (String.mk ['0', c]) = LexRes.ok [AliceToken.number 0 false] := by
  have hc : c ∈ sepChars := by
    simpa [AliceSeparator.containsChar, List.elem_iff] using h
  fin_cases hc <;> decide

/-- C10 (witness). -/
theorem zero_then_separator_yields_one_token_witness :
    tokenize "0)" = LexRes.ok [AliceToken.number 0 false] := by
  have h := zero_then_separator_yields_one_token ')' (by decide)
  rw [show String.mk ['0', ')'] = "0)" from by decide] at h
  exact h

end Alice
